import Mathlib

/-!
Verification development for the semantic-search component of the `astraai`
repository (`src/tools/semantic_search.py`).

Modelling conventions:
* Python strings are modelled as `List Char`; the slice `text[start:start+n]`
  (with nonnegative bounds) is `(text.drop start).take n`.
* Python ints are modelled as `ℕ` where the code keeps them nonnegative,
  and as `ℤ` where sign matters; floats are idealised as exact rationals `ℚ`.
* The `while` loop of `_chunk_text` is modelled with an explicit fuel
  parameter; exhausting the fuel yields `none`, so termination of the loop
  is the statement that a concrete fuel bound always yields `some`.
-/

/-- Loop body of `SemanticSearchTool._chunk_text` (semantic_search.py lines
378-388): starting from offset `start`, repeatedly emit the slice
`text[start : start + chunk_size]`; stop after the first slice whose end
reaches the end of the text, otherwise advance `start` by
`chunk_size - overlap`.  The `fuel` argument bounds the number of loop
iterations; `none` means the bound was exhausted before the loop finished. -/
def chunkLoop (text : List Char) (chunk_size overlap : ℕ) : ℕ → ℕ → Option (List (List Char))
  | 0, _ => none
  | fuel + 1, start =>
    if start < text.length then
      if text.length ≤ start + chunk_size then
        some [(text.drop start).take chunk_size]
      else
        (chunkLoop text chunk_size overlap fuel (start + chunk_size - overlap)).map
          (fun rest => (text.drop start).take chunk_size :: rest)
    else
      some []

/-- Model of `SemanticSearchTool._chunk_text` (semantic_search.py lines
369-389): texts of length at most `chunk_size` are returned whole as a
single chunk; longer texts run the window loop starting at offset `0`.
The fuel `text.length + 1` is sufficient whenever `overlap < chunk_size`
(proved below); when the loop would not make forward progress the fuel
runs out and the result is `none`, mirroring non-termination. -/
def chunk_text (text : List Char) (chunk_size overlap : ℕ) : Option (List (List Char)) :=
  if text.length ≤ chunk_size then some [text]
  else chunkLoop text chunk_size overlap (text.length + 1) 0

/-- Model of the accepted value space of `SemanticSearchConfig`
(semantic_search.py lines 115-189).  Only the fields with validation
constraints are carried. -/
structure SemanticSearchConfigData where
  chunk_size : ℤ
  chunk_overlap : ℤ
  similarity_threshold : ℚ
  limit : ℤ
  embedding_provider : String
deriving DecidableEq

/-- Model of the pydantic validation performed when `SemanticSearchConfig`
is instantiated (semantic_search.py lines 115-189): each numeric field is
checked against its `ge`/`le` bounds in isolation and the provider must be
one of the two `Literal` alternatives.  The source defines no
cross-field validator, so this conjunction of per-field bounds is the
entire validation. -/
def configAccepted (c : SemanticSearchConfigData) : Bool :=
  (100 ≤ c.chunk_size && c.chunk_size ≤ 4000) &&
  (0 ≤ c.chunk_overlap && c.chunk_overlap ≤ 500) &&
  (0 ≤ c.similarity_threshold && c.similarity_threshold ≤ 1) &&
  (1 ≤ c.limit && c.limit ≤ 100) &&
  (c.embedding_provider == "huggingface" || c.embedding_provider == "vertexai")

/-- Metadata attached to an indexed chunk (semantic_search.py lines 361-366). -/
structure ChunkMeta where
  file_path : String
  file_name : String
  chunk_index : ℕ
  file_extension : String
deriving DecidableEq

/-- One candidate returned by the vector store for a query: a stored document
together with its metadata and its cosine distance from the query embedding
(the triple zipped at semantic_search.py lines 441-445). -/
structure Candidate where
  document : String
  metadata : ChunkMeta
  distance : ℚ
deriving DecidableEq

/-- One entry of the `results` list built by `_execute`
(semantic_search.py lines 451-458). -/
structure QueryResult where
  content : String
  similarity_score : ℚ
  file_path : String
  file_name : String
  chunk_index : ℕ
  file_extension : String
deriving DecidableEq

/-- The slice of `tool_config` that `_execute` reads: the configured default
`limit` and `similarity_threshold` (semantic_search.py lines 165-176, 398-399). -/
structure SearchDefaults where
  limit : ℕ
  similarity_threshold : ℚ
deriving DecidableEq

/-- The `params` dict received by `_execute`: `query` is `none` when the
parameter is absent or `None`; `limit` and `similarity_threshold` are `none`
when not supplied by the caller (semantic_search.py lines 393-399). -/
structure ExecuteParams where
  query : Option String
  limit : Option ℕ
  similarity_threshold : Option ℚ

/-- The shapes of dictionary `_execute` can return (semantic_search.py lines
394-395, 409-421, 460-475).  `paramError` is the bare `{"error": ...}` dict
returned for a missing query; `indexingInProgress` is the
`"status": "indexing_in_progress"` dict, which carries no `results` list and
no `error` field; `success` carries the filtered result list together with
the effective `limit` and `similarity_threshold` echoed in the `config`
section of the response. -/
inductive ExecuteResult where
  | paramError (message : String)
  | indexingInProgress (query : String)
  | success (query : String) (results : List QueryResult) (limit : ℕ)
      (similarity_threshold : ℚ)

/-- Model of Python `round(x, 4)` (semantic_search.py line 453) over exact
rationals: round `x * 10 ^ 4` to the nearest integer and scale back.
Mathlib's `round` resolves exact ties upward while CPython resolves them to
even; the two agree everywhere except at exact midpoints, and no statement
below depends on midpoint behaviour. -/
def round4 (q : ℚ) : ℚ := ((round (q * 10000) : ℤ) : ℚ) / 10000

/-- Construction of one result entry from a candidate
(semantic_search.py lines 451-458): the stored `similarity_score` is the
similarity `1 - distance` rounded to four decimal places. -/
def formatResult (c : Candidate) : QueryResult :=
  { content := c.document
    similarity_score := round4 (1 - c.distance)
    file_path := c.metadata.file_path
    file_name := c.metadata.file_name
    chunk_index := c.metadata.chunk_index
    file_extension := c.metadata.file_extension }

/-- The result-formatting loop of `_execute` (semantic_search.py lines
440-458): walk the store's candidates in order, convert each distance `d` to
the similarity `1 - d`, and keep exactly those candidates whose (unrounded)
similarity is at least the threshold. -/
def filterResults (threshold : ℚ) (candidates : List Candidate) : List QueryResult :=
  candidates.filterMap
    (fun c => if threshold ≤ 1 - c.distance then some (formatResult c) else none)

/-- The local variable `limit` of `_execute`
(semantic_search.py line 398): the caller's value, or the configured default. -/
def effective_limit (cfg : SearchDefaults) (p : ExecuteParams) : ℕ :=
  p.limit.getD cfg.limit

/-- The local variable `similarity_threshold` of `_execute`
(semantic_search.py line 399): the caller's value, or the configured default. -/
def effective_threshold (cfg : SearchDefaults) (p : ExecuteParams) : ℚ :=
  p.similarity_threshold.getD cfg.similarity_threshold

/-- Model of `SemanticSearchTool._execute` (semantic_search.py lines
391-475) as a function of the inputs the coroutine reads: the configured
defaults, the current `_indexing_complete` flag, the value returned by
`self.collection.count()`, the candidate list the store would return for
the query (already truncated by the store to `n_results = limit`), and the
call parameters.  The returned `Bool` is the value of `_indexing_complete`
after the call.  The model covers executions in which the embedding
provider and the store do not raise (the `except` branch at lines 477-483
is outside every claim below). -/
def execute (cfg : SearchDefaults) (indexing_complete : Bool) (collection_count : ℕ)
    (candidates : List Candidate) (p : ExecuteParams) : ExecuteResult × Bool :=
  match p.query with
  | none => (.paramError "Query parameter is required", indexing_complete)
  | some q =>
    if q = "" then
      (.paramError "Query parameter is required", indexing_complete)
    else
      if indexing_complete = false ∧ collection_count = 0 then
        (.indexingInProgress q, indexing_complete)
      else
        (.success q (filterResults (effective_threshold cfg p) candidates)
          (effective_limit cfg p) (effective_threshold cfg p), true)

/-- The result list carried by a `success` response; non-`success` responses
carry no result list. -/
def searchResults : ExecuteResult × Bool → List QueryResult
  | (.success _ rs _ _, _) => rs
  | _ => []

/-- State of one tool instance that the indexing run mutates: the
`_indexing_complete` flag and the documents held by the ChromaDB collection
(semantic_search.py lines 221-222). -/
structure IndexState where
  indexing_complete : Bool
  collection : List String
deriving DecidableEq

/-- Outcome of the directory-scan phase of `_index_directory`
(semantic_search.py lines 274-312): the scan directory may not exist
(line 275), the scan itself may raise an unexpected exception that
propagates out of `_index_directory` (per-file failures at lines 296-297
and 309-310 are caught and skipped, so `scanned` already reflects them),
or it produces the accumulated list of non-empty chunk documents. -/
inductive ScanOutcome where
  | missingDirectory
  | scanFailure
  | scanned (documents : List String)

/-- Fuel-driven helper for `batchesOf`; the fuel is sufficient whenever it
is at least the list length and the batch size is positive. -/
def batchesOfAux (batch_size : ℕ) : ℕ → List String → List (List String)
  | _, [] => []
  | 0, _ :: _ => []
  | fuel + 1, docs => docs.take batch_size :: batchesOfAux batch_size fuel (docs.drop batch_size)

/-- The batching of `for i in range(0, len(documents), batch_size)`
(semantic_search.py lines 317-321): consecutive slices of `batch_size`
documents, the last one possibly shorter. -/
def batchesOf (batch_size : ℕ) (docs : List String) : List (List String) :=
  batchesOfAux batch_size docs.length docs

/-- The embed-and-upsert loop of `_index_directory` (semantic_search.py
lines 316-339): process the batches in order, appending each successfully
embedded batch to the collection; `fails i = true` means the embedding or
the `collection.add` call for the `i`-th batch raises, which aborts the
loop at that batch.  Returns the final collection contents and whether the
whole loop completed without an exception. -/
def runBatches (fails : ℕ → Bool) : ℕ → List (List String) → List String → List String × Bool
  | _, [], coll => (coll, true)
  | i, b :: rest, coll =>
    if fails i then (coll, false)
    else runBatches fails (i + 1) rest (coll ++ b)

/-- Model of `SemanticSearchTool._index_directory` (semantic_search.py lines
266-344), parameterised by the scan outcome and by which batch operations
raise.  `Except.error ()` models an exception propagating out of the method
(only a scan-phase exception does: the batch loop catches its own
exceptions at lines 335-339 and returns without marking completion). -/
def index_directory (st : IndexState) (scan : ScanOutcome) (fails : ℕ → Bool) :
    Except Unit IndexState :=
  if st.indexing_complete then .ok st
  else
    match scan with
    | .missingDirectory => .ok { st with indexing_complete := true }
    | .scanFailure => .error ()
    | .scanned docs =>
      if docs.isEmpty then .ok { st with indexing_complete := true }
      else
        let r := runBatches fails 0 (batchesOf 100 docs) st.collection
        if r.2 then .ok { indexing_complete := true, collection := r.1 }
        else .ok { indexing_complete := st.indexing_complete, collection := r.1 }

/-- Model of the `index_worker` wrapper of `_start_background_indexing`
(semantic_search.py lines 250-260): an exception escaping
`_index_directory` is caught and the flag is forced to `True`
("Mark as complete even on failure to avoid infinite waiting"). -/
def index_worker (st : IndexState) (scan : ScanOutcome) (fails : ℕ → Bool) : IndexState :=
  match index_directory st scan fails with
  | .ok st' => st'
  | .error _ => { st with indexing_complete := true }

/-- Model of `os.path.join(a, b)` for the paths the tool builds: the joined
component `.chroma_db_<name>` is a relative path fragment, for which the
join inserts a single separator. -/
def osPathJoin (a b : String) : String := a ++ "/" ++ b

/-- The slice of `SemanticSearchConfig` relevant to where the index is
persisted: the scan directory plus every provider-selection field
(semantic_search.py lines 118-162). -/
structure ProviderConfig where
  scan_directory : String
  embedding_provider : String
  huggingface_model : String
  vertexai_model : String
  vertexai_project_id : Option String
  vertexai_location : String
deriving DecidableEq

/-- Identity of the persisted vector-store collection. -/
structure CollectionIdentity where
  chroma_path : String
  collection_name : String
deriving DecidableEq

/-- Derivation of the collection identity in `SemanticSearchTool.__init__`
(semantic_search.py lines 211-218): the persistence path is
`os.path.join(scan_directory, f".chroma_db_{name}")` and the collection
name is `f"semantic_search_{name}"`.  The construction reads only
`cfg.scan_directory` and the tool `name`. -/
def collectionIdentity (cfg : ProviderConfig) (name : String) : CollectionIdentity :=
  { chroma_path := osPathJoin cfg.scan_directory (".chroma_db_" ++ name)
    collection_name := "semantic_search_" ++ name }

/-! ### Lemmas about the chunker -/

/-- Fuel at least `text.length - start + 1` suffices for the window loop
when `overlap < chunk_size`, because each iteration advances `start` by
`chunk_size - overlap ≥ 1`. -/
theorem chunkLoop_isSome (text : List Char) (chunk_size overlap : ℕ)
    (hCO : overlap < chunk_size) :
    ∀ fuel start, text.length - start < fuel →
      (chunkLoop text chunk_size overlap fuel start).isSome := by
  intro fuel
  induction fuel with
  | zero => intro start h; exact absurd h (Nat.not_lt_zero _)
  | succ n ih =>
    intro start h
    rw [chunkLoop]
    split
    case isTrue hlt =>
      split
      case isTrue hend => simp
      case isFalse hend =>
        obtain ⟨v, hv⟩ :=
          Option.isSome_iff_exists.1 (ih (start + chunk_size - overlap) (by omega))
        simp [hv]
    case isFalse hge => simp

/-- Every character position of the text from `start` onward is covered by
some chunk emitted by the window loop. -/
theorem mem_take_drop {text : List Char} {start n i : ℕ} (hi : i < text.length)
    (h1 : start ≤ i) (h2 : i < start + n) :
    text.get ⟨i, hi⟩ ∈ (text.drop start).take n := by
  have hlen : i - start < ((text.drop start).take n).length := by
    simp only [List.length_take, List.length_drop]
    omega
  rw [List.mem_iff_get]
  refine ⟨⟨i - start, hlen⟩, ?_⟩
  show ((text.drop start).take n)[i - start] = text[i]
  have harith : start + (i - start) = i := by omega
  simp [List.getElem_take, List.getElem_drop, harith]

/-- Coverage invariant of the window loop: if it returns chunks, every
character of the text at a position `≥ start` belongs to one of them. -/
theorem chunkLoop_cover (text : List Char) (chunk_size overlap : ℕ) :
    ∀ fuel start cs, chunkLoop text chunk_size overlap fuel start = some cs →
      ∀ i (hi : i < text.length), start ≤ i → ∃ c ∈ cs, text.get ⟨i, hi⟩ ∈ c := by
  intro fuel
  induction fuel with
  | zero => intro start cs h; exact absurd h (by simp [chunkLoop])
  | succ n ih =>
    intro start cs h i hi hstart
    rw [chunkLoop] at h
    split at h
    case isTrue hlt =>
      split at h
      case isTrue hend =>
        obtain rfl := Option.some.inj h
        exact ⟨_, List.mem_singleton_self _, mem_take_drop hi hstart (by omega)⟩
      case isFalse hend =>
        cases hrec : chunkLoop text chunk_size overlap n (start + chunk_size - overlap) with
        | none => rw [hrec] at h; exact absurd h (by simp)
        | some rest =>
          rw [hrec] at h
          obtain rfl := Option.some.inj h
          by_cases hic : i < start + chunk_size
          · exact ⟨_, List.mem_cons_self _ _, mem_take_drop hi hstart hic⟩
          · obtain ⟨c, hc, hmem⟩ := ih (start + chunk_size - overlap) rest hrec i hi (by omega)
            exact ⟨c, List.mem_cons_of_mem _ hc, hmem⟩
    case isFalse hge => omega

/-- Shape invariant of the window loop: the `k`-th chunk it emits from
offset `start` is exactly the window at offset
`start + k * (chunk_size - overlap)`. -/
theorem chunkLoop_get (text : List Char) (chunk_size overlap : ℕ) (hO : overlap ≤ chunk_size) :
    ∀ fuel start cs, chunkLoop text chunk_size overlap fuel start = some cs →
      ∀ k (hk : k < cs.length),
        cs.get ⟨k, hk⟩ = (text.drop (start + k * (chunk_size - overlap))).take chunk_size := by
  intro fuel
  induction fuel with
  | zero => intro start cs h; exact absurd h (by simp [chunkLoop])
  | succ n ih =>
    intro start cs h k hk
    rw [chunkLoop] at h
    split at h
    case isTrue hlt =>
      split at h
      case isTrue hend =>
        obtain rfl := Option.some.inj h
        match k, hk with
        | 0, _ => simp
      case isFalse hend =>
        cases hrec : chunkLoop text chunk_size overlap n (start + chunk_size - overlap) with
        | none => rw [hrec] at h; exact absurd h (by simp)
        | some rest =>
          rw [hrec] at h
          obtain rfl := Option.some.inj h
          match k, hk with
          | 0, _ => simp
          | k + 1, hk =>
            have hrest := ih (start + chunk_size - overlap) rest hrec k
              (by simpa using Nat.lt_of_succ_lt_succ hk)
            have harith : start + chunk_size - overlap + k * (chunk_size - overlap) =
                start + (k + 1) * (chunk_size - overlap) := by
              rw [Nat.succ_mul]
              generalize k * (chunk_size - overlap) = m
              omega
            simpa [harith] using hrest
    case isFalse hge =>
      obtain rfl := Option.some.inj h
      exact absurd hk (by simp)

/-! ### Claims C3, C4, C5: the chunker -/

/-- C3: for every text `T`, every `chunk_size > 0` and every `overlap` with
`0 ≤ overlap < chunk_size`, `_chunk_text` covers every character of `T` in
order — each character occurs in at least one chunk, and the `k`-th chunk
is the window starting at offset `k * (chunk_size - overlap)`, these start
offsets being strictly increasing — and if `T.length ≤ chunk_size` the
result is exactly the one-element list `[T]`. -/
theorem chunk_text_coverage (text : List Char) (chunk_size overlap : ℕ)
    (hC : 0 < chunk_size) (hCO : overlap < chunk_size) :
    ∃ cs, chunk_text text chunk_size overlap = some cs ∧
      (∀ i (hi : i < text.length), ∃ c ∈ cs, text.get ⟨i, hi⟩ ∈ c) ∧
      (∀ k (hk : k < cs.length),
        cs.get ⟨k, hk⟩ = (text.drop (k * (chunk_size - overlap))).take chunk_size) ∧
      (∀ j k, j < k → k < cs.length →
        j * (chunk_size - overlap) < k * (chunk_size - overlap)) ∧
      (text.length ≤ chunk_size → cs = [text]) := by
  by_cases hle : text.length ≤ chunk_size
  · refine ⟨[text], ?_, ?_, ?_, ?_, fun _ => rfl⟩
    · rw [chunk_text, if_pos hle]
    · intro i hi
      refine ⟨text, List.mem_singleton_self _, ?_⟩
      show text[i] ∈ text
      exact List.getElem_mem hi
    · intro k hk
      have hk0 : k = 0 := by simpa using hk
      subst hk0
      simpa using (List.take_of_length_le hle).symm
    · intro j k hjk hk
      have hk0 : k = 0 := by simpa using hk
      omega
  · obtain ⟨cs, hcs⟩ := Option.isSome_iff_exists.1
      (chunkLoop_isSome text chunk_size overlap hCO (text.length + 1) 0 (by omega))
    have hD : 0 < chunk_size - overlap := by omega
    refine ⟨cs, by rw [chunk_text, if_neg hle]; exact hcs, ?_, ?_, ?_, fun h => absurd h hle⟩
    · intro i hi
      exact chunkLoop_cover text chunk_size overlap (text.length + 1) 0 cs hcs i hi
        (Nat.zero_le i)
    · intro k hk
      simpa using
        chunkLoop_get text chunk_size overlap (le_of_lt hCO) (text.length + 1) 0 cs hcs k hk
    · intro j k hjk hk
      exact mul_lt_mul_of_pos_right hjk hD

/-- Witness for C3 at the spec's own example input. -/
theorem chunk_text_coverage_witness :
    ∃ cs, chunk_text "ABCDEFGHIJ".toList 5 2 = some cs ∧
      (∀ i (hi : i < "ABCDEFGHIJ".toList.length), ∃ c ∈ cs, "ABCDEFGHIJ".toList.get ⟨i, hi⟩ ∈ c) ∧
      (∀ k (hk : k < cs.length),
        cs.get ⟨k, hk⟩ = ("ABCDEFGHIJ".toList.drop (k * (5 - 2))).take 5) ∧
      (∀ j k, j < k → k < cs.length → j * (5 - 2) < k * (5 - 2)) ∧
      ("ABCDEFGHIJ".toList.length ≤ 5 → cs = ["ABCDEFGHIJ".toList]) :=
  chunk_text_coverage "ABCDEFGHIJ".toList 5 2 (by decide) (by decide)

/-- C4: chunking `"ABCDEFGHIJ"` with `chunk_size = 5` and `overlap = 2`
yields exactly `["ABCDE", "DEFGH", "GHIJ"]`, the final chunk being shorter
than `chunk_size`. -/
theorem chunk_text_example :
    chunk_text "ABCDEFGHIJ".toList 5 2 =
      some ["ABCDE".toList, "DEFGH".toList, "GHIJ".toList] ∧
    "GHIJ".toList.length < 5 := by decide

/-- C5: whenever `0 ≤ overlap < chunk_size` the chunking loop terminates —
any fuel exceeding the number of characters left of the current offset is
enough (each iteration advances the offset by `chunk_size - overlap ≥ 1`),
and in particular `_chunk_text` is total under that precondition. -/
theorem chunk_text_terminates (text : List Char) (chunk_size overlap : ℕ)
    (hCO : overlap < chunk_size) :
    (∀ fuel start, text.length - start < fuel →
      (chunkLoop text chunk_size overlap fuel start).isSome) ∧
    (chunk_text text chunk_size overlap).isSome := by
  refine ⟨chunkLoop_isSome text chunk_size overlap hCO, ?_⟩
  rw [chunk_text]
  split
  · simp
  · exact chunkLoop_isSome text chunk_size overlap hCO (text.length + 1) 0 (by omega)

/-- Witness for C5 at a concrete text and window configuration. -/
theorem chunk_text_terminates_witness :
    (∀ fuel start, "HELLO WORLD".toList.length - start < fuel →
      (chunkLoop "HELLO WORLD".toList 4 1 fuel start).isSome) ∧
    (chunk_text "HELLO WORLD".toList 4 1).isSome :=
  chunk_text_terminates "HELLO WORLD".toList 4 1 (by decide)

/-! ### Claim C1: configuration validation of the chunk/overlap relationship -/

/-- With `chunk_size = 100` and `overlap = 200` the window loop makes no
forward progress (the offset `0 + 100 - 200` never passes `0`; in Python
the offset even moves backwards), so no amount of fuel finishes it. -/
theorem chunkLoop_no_progress (fuel : ℕ) :
    chunkLoop (List.replicate 101 'a') 100 200 fuel 0 = none := by
  induction fuel with
  | zero => rfl
  | succ n ih =>
    rw [chunkLoop]
    rw [if_pos (by simp), if_neg (by simp), show (0 : ℕ) + 100 - 200 = 0 from rfl, ih]
    rfl

/-- C1 (the code lacks the claimed validation): `SemanticSearchConfig`
accepts `chunk_size = 100, chunk_overlap = 200` — every per-field `ge`/`le`
bound holds and no cross-field validator exists — even though
`chunk_overlap < chunk_size` fails; on such a configuration the chunking
loop never terminates (modelled: it returns `none` for every fuel bound),
exactly the non-termination the spec says validation must preclude. -/
theorem configAccepted_overlap_not_validated :
    configAccepted ⟨100, 200, 0, 10, "huggingface"⟩ = true ∧
    ¬ ((⟨100, 200, 0, 10, "huggingface"⟩ : SemanticSearchConfigData).chunk_overlap <
        (⟨100, 200, 0, 10, "huggingface"⟩ : SemanticSearchConfigData).chunk_size) ∧
    (∀ fuel, chunkLoop (List.replicate 101 'a') 100 200 fuel 0 = none) ∧
    chunk_text (List.replicate 101 'a') 100 200 = none := by
  refine ⟨by decide, by decide, chunkLoop_no_progress, ?_⟩
  rw [chunk_text, if_neg (by simp)]
  exact chunkLoop_no_progress _

/-! ### Claims C2, C10: gating and parameter validation of `_execute` -/

/-- C2: with the indexing flag unset, a query against an empty collection
returns the `indexing_in_progress` status (which carries no result list and
no error) and leaves the flag unset; with the flag unset but a non-empty
collection, the call sets the flag to complete and answers exactly as a
completed-index call would. -/
theorem execute_indexing_gate (cfg : SearchDefaults) (collection_count : ℕ)
    (candidates : List Candidate) (p : ExecuteParams) (q : String)
    (hq : p.query = some q) (hq' : q ≠ "") :
    (collection_count = 0 →
      execute cfg false collection_count candidates p = (.indexingInProgress q, false)) ∧
    (0 < collection_count →
      execute cfg false collection_count candidates p =
        (.success q (filterResults (effective_threshold cfg p) candidates)
          (effective_limit cfg p) (effective_threshold cfg p), true) ∧
      execute cfg false collection_count candidates p =
        ((execute cfg true collection_count candidates p).1, true)) := by
  constructor
  · intro h0
    subst h0
    simp [execute, hq, hq']
  · intro hpos
    constructor
    · simp [execute, hq, hq', hpos.ne']
    · simp [execute, hq, hq', hpos.ne']

/-- Witness for C2: a non-empty collection with the flag unset answers the
query and repairs the flag. -/
theorem execute_indexing_gate_witness :
    ((1 : ℕ) = 0 →
      execute ⟨10, 0⟩ false 1 [] ⟨some "hello", none, none⟩ =
        (.indexingInProgress "hello", false)) ∧
    (0 < (1 : ℕ) →
      execute ⟨10, 0⟩ false 1 [] ⟨some "hello", none, none⟩ =
        (.success "hello"
          (filterResults (effective_threshold ⟨10, 0⟩ ⟨some "hello", none, none⟩) [])
          (effective_limit ⟨10, 0⟩ ⟨some "hello", none, none⟩)
          (effective_threshold ⟨10, 0⟩ ⟨some "hello", none, none⟩), true) ∧
      execute ⟨10, 0⟩ false 1 [] ⟨some "hello", none, none⟩ =
        ((execute ⟨10, 0⟩ true 1 [] ⟨some "hello", none, none⟩).1, true)) :=
  execute_indexing_gate ⟨10, 0⟩ 1 [] ⟨some "hello", none, none⟩ "hello" rfl (by decide)

/-- C10: a call whose `query` parameter is absent, `None`, or the empty
string returns the bare `{"error": "Query parameter is required"}` result —
identically for every indexing flag, collection count and candidate list
(so neither the indexing state nor the store is consulted), with the flag
left unchanged. -/
theorem execute_missing_query (cfg : SearchDefaults) (flag : Bool) (count : ℕ)
    (candidates : List Candidate) (p : ExecuteParams)
    (h : p.query = none ∨ p.query = some "") :
    execute cfg flag count candidates p =
      (.paramError "Query parameter is required", flag) := by
  rcases h with h | h <;> simp [execute, h]

/-- Witness for C10: an empty-string query is rejected like a missing one. -/
theorem execute_missing_query_witness :
    execute ⟨10, 0⟩ true 5 [] ⟨some "", none, none⟩ =
      (.paramError "Query parameter is required", true) :=
  execute_missing_query ⟨10, 0⟩ true 5 [] ⟨some "", none, none⟩ (Or.inr rfl)

/-! ### Lemmas about rounding and result filtering -/

/-- Rounding to four decimal places is monotone. -/
theorem round4_mono {a b : ℚ} (h : a ≤ b) : round4 a ≤ round4 b := by
  unfold round4
  have hm : round (a * 10000) ≤ round (b * 10000) := by
    rw [round_eq, round_eq]
    exact Int.floor_mono (by linarith)
  have hm' : ((round (a * 10000) : ℤ) : ℚ) ≤ ((round (b * 10000) : ℤ) : ℚ) := by
    exact_mod_cast hm
  linarith

/-- Rounding to four decimal places moves a value by at most `1 / 20000`. -/
theorem round4_error (q : ℚ) : q - 1 / 20000 ≤ round4 q ∧ round4 q ≤ q + 1 / 20000 := by
  unfold round4
  have h := abs_sub_round (q * 10000)
  rw [abs_le] at h
  constructor <;> [linarith [h.1]; linarith [h.2]]

/-- Evaluation rule for `round4` at arguments whose scaled value lies in a
known unit interval. -/
theorem round4_eval (q : ℚ) (z : ℤ) (h1 : (z : ℚ) ≤ q * 10000 + 1 / 2)
    (h2 : q * 10000 + 1 / 2 < z + 1) : round4 q = (z : ℚ) / 10000 := by
  unfold round4
  rw [round_eq, Int.floor_eq_iff.2 ⟨h1, h2⟩]

/-- Rounding fixes `0`. -/
theorem round4_zero : round4 0 = 0 := by
  have h := round4_eval 0 0 (by norm_num) (by norm_num)
  simpa using h

/-- Rounding fixes `1`. -/
theorem round4_one : round4 1 = 1 := by
  have h := round4_eval 1 10000 (by norm_num) (by norm_num)
  rw [h]
  norm_num

/-- Every entry of the filtered result list comes from a candidate whose
unrounded similarity clears the threshold. -/
theorem mem_filterResults {t : ℚ} {cands : List Candidate} {r : QueryResult}
    (h : r ∈ filterResults t cands) :
    ∃ c ∈ cands, t ≤ 1 - c.distance ∧ r = formatResult c := by
  unfold filterResults at h
  rw [List.mem_filterMap] at h
  obtain ⟨c, hc, hfc⟩ := h
  by_cases hpass : t ≤ 1 - c.distance
  · rw [if_pos hpass] at hfc
    exact ⟨c, hc, hpass, (Option.some.inj hfc).symm⟩
  · rw [if_neg hpass] at hfc
    exact absurd hfc (by simp)

/-- Unfolding rule for `filterResults` on a cons cell. -/
theorem filterResults_cons (t : ℚ) (c : Candidate) (cs : List Candidate) :
    filterResults t (c :: cs) =
      if t ≤ 1 - c.distance then formatResult c :: filterResults t cs
      else filterResults t cs := by
  unfold filterResults
  by_cases hpass : t ≤ 1 - c.distance
  · rw [if_pos hpass]
    exact List.filterMap_cons_some (by simp [hpass])
  · rw [if_neg hpass]
    exact List.filterMap_cons_none (by simp [hpass])

/-- Filtering never lengthens the candidate list. -/
theorem filterResults_length_le (t : ℚ) (cands : List Candidate) :
    (filterResults t cands).length ≤ cands.length := by
  unfold filterResults
  exact List.length_filterMap_le _ _

/-- Filtering preserves the store's order, and `d ↦ 1 - d` followed by
rounding is antitone, so candidates sorted by ascending distance yield
results sorted by non-increasing rounded similarity. -/
theorem filterResults_sorted {t : ℚ} {cands : List Candidate}
    (h : cands.Pairwise (fun a b => a.distance ≤ b.distance)) :
    (filterResults t cands).Pairwise
      (fun a b => b.similarity_score ≤ a.similarity_score) := by
  induction cands with
  | nil => simp [filterResults]
  | cons c cs ih =>
    rcases List.pairwise_cons.1 h with ⟨hc, hcs⟩
    rw [filterResults_cons]
    split
    case isTrue hpass =>
      rw [List.pairwise_cons]
      refine ⟨?_, ih hcs⟩
      intro r hr
      obtain ⟨b, hb, hpb, rfl⟩ := mem_filterResults hr
      simp only [formatResult]
      exact round4_mono (by have := hc b hb; linarith)
    case isFalse hpass => exact ih hcs

/-- A call to `_execute` either carries no result list, or its result list
is the threshold-filtered candidate list. -/
theorem searchResults_execute (cfg : SearchDefaults) (flag : Bool) (count : ℕ)
    (cands : List Candidate) (p : ExecuteParams) :
    searchResults (execute cfg flag count cands p) = [] ∨
    searchResults (execute cfg flag count cands p) =
      filterResults (effective_threshold cfg p) cands := by
  obtain ⟨oq, ol, ot⟩ := p
  cases oq with
  | none => exact Or.inl rfl
  | some q =>
    simp only [execute]
    split
    · exact Or.inl rfl
    · split
      · exact Or.inl rfl
      · exact Or.inr rfl

/-! ### Claims C6, C7: similarity bounds and ranking of returned results -/

/-- C6 as written is false on the code (see the counterexample below); this
is the amended statement.  Every result a `success` response returns stems
from a candidate whose unrounded similarity `1 - d` clears the effective
threshold; the stored `similarity_score` is that similarity rounded to four
decimal places, hence at least `threshold - 1/20000`; and provided the
effective threshold is nonnegative (the configured default always is, a
caller-supplied one is not validated) and the store's distances are
nonnegative (as cosine distances are), every stored score lies in `[0, 1]`. -/
theorem execute_similarity_bounds (cfg : SearchDefaults) (flag : Bool) (count : ℕ)
    (cands : List Candidate) (p : ExecuteParams)
    (ht : 0 ≤ effective_threshold cfg p)
    (hd : ∀ c ∈ cands, 0 ≤ c.distance) :
    ∀ r ∈ searchResults (execute cfg flag count cands p),
      (∃ c ∈ cands,
        r.similarity_score = round4 (1 - c.distance) ∧
        effective_threshold cfg p ≤ 1 - c.distance) ∧
      effective_threshold cfg p - 1 / 20000 ≤ r.similarity_score ∧
      0 ≤ r.similarity_score ∧ r.similarity_score ≤ 1 := by
  intro r hr
  rcases searchResults_execute cfg flag count cands p with hnil | hres
  · rw [hnil] at hr
    exact absurd hr (List.not_mem_nil r)
  · rw [hres] at hr
    obtain ⟨c, hc, hpass, rfl⟩ := mem_filterResults hr
    simp only [formatResult]
    refine ⟨⟨c, hc, rfl, hpass⟩, ?_, ?_, ?_⟩
    · have hb := (round4_error (1 - c.distance)).1
      linarith
    · have h0 : (0 : ℚ) ≤ 1 - c.distance := le_trans ht hpass
      have := round4_mono h0
      rwa [round4_zero] at this
    · have h1 : 1 - c.distance ≤ 1 := by
        have := hd c hc
        linarith
      have := round4_mono h1
      rwa [round4_one] at this

/-- Witness for C6 (amended) at a concrete store answer and its returned
result. -/
theorem execute_similarity_bounds_witness :
    (∃ c ∈ [(⟨"doc", ⟨"a.md", "a.md", 0, ".md"⟩, 0⟩ : Candidate)],
      (formatResult ⟨"doc", ⟨"a.md", "a.md", 0, ".md"⟩, 0⟩).similarity_score =
        round4 (1 - c.distance) ∧
      effective_threshold ⟨10, 0⟩ ⟨some "q", none, none⟩ ≤ 1 - c.distance) ∧
    effective_threshold ⟨10, 0⟩ ⟨some "q", none, none⟩ - 1 / 20000 ≤
      (formatResult ⟨"doc", ⟨"a.md", "a.md", 0, ".md"⟩, 0⟩).similarity_score ∧
    0 ≤ (formatResult ⟨"doc", ⟨"a.md", "a.md", 0, ".md"⟩, 0⟩).similarity_score ∧
    (formatResult ⟨"doc", ⟨"a.md", "a.md", 0, ".md"⟩, 0⟩).similarity_score ≤ 1 :=
  execute_similarity_bounds ⟨10, 0⟩ true 1 [⟨"doc", ⟨"a.md", "a.md", 0, ".md"⟩, 0⟩]
    ⟨some "q", none, none⟩ (by decide) (by decide)
    (formatResult ⟨"doc", ⟨"a.md", "a.md", 0, ".md"⟩, 0⟩)
    (by
      have h : searchResults (execute ⟨10, 0⟩ true 1
          [⟨"doc", ⟨"a.md", "a.md", 0, ".md"⟩, 0⟩] ⟨some "q", none, none⟩) =
          [formatResult ⟨"doc", ⟨"a.md", "a.md", 0, ".md"⟩, 0⟩] := by
        simp [execute, searchResults, effective_threshold, filterResults, sub_zero]
      rw [h]
      exact List.mem_singleton_self _)

/-- Counterexample to C6 as written: with a caller-supplied threshold of
`-0.74997` (nothing validates caller-supplied thresholds) and a store
distance of `1.749966` (a legal cosine distance), the call succeeds and
returns a result whose stored `similarity_score` is `-0.75`: it is below
the effective threshold (rounding pushed it under) and negative, violating
both `similarity_score ≥ similarity_threshold` and
`0 ≤ similarity_score ≤ 1`. -/
theorem execute_similarity_bounds_counterexample :
    execute ⟨10, 3/10⟩ true 1 [⟨"doc", ⟨"a.md", "a.md", 0, ".md"⟩, 1749966/1000000⟩]
        ⟨some "q", none, some (-(74997/100000))⟩ =
      (.success "q" [⟨"doc", -(3/4), "a.md", "a.md", 0, ".md"⟩] 10 (-(74997/100000)), true) ∧
    ¬ (-(74997/100000) : ℚ) ≤ -(3/4) ∧
    ¬ (0 : ℚ) ≤ -(3/4) := by
  have hscore : round4 (1 - 1749966/1000000) = -(3/4) := by
    have h := round4_eval (1 - 1749966/1000000) (-7500) (by norm_num) (by norm_num)
    rw [h]
    norm_num
  refine ⟨?_, by norm_num, by norm_num⟩
  have hfilter : filterResults (-(74997/100000) : ℚ)
      [⟨"doc", ⟨"a.md", "a.md", 0, ".md"⟩, 1749966/1000000⟩] =
      [⟨"doc", -(3/4), "a.md", "a.md", 0, ".md"⟩] := by
    rw [filterResults_cons, if_pos (by norm_num)]
    rw [show filterResults (-(74997/100000) : ℚ) [] = [] from rfl]
    rw [show formatResult ⟨"doc", ⟨"a.md", "a.md", 0, ".md"⟩, 1749966/1000000⟩ =
      ⟨"doc", round4 (1 - 1749966/1000000), "a.md", "a.md", 0, ".md"⟩ from rfl]
    rw [hscore]
  calc execute ⟨10, 3/10⟩ true 1 [⟨"doc", ⟨"a.md", "a.md", 0, ".md"⟩, 1749966/1000000⟩]
        ⟨some "q", none, some (-(74997/100000))⟩ =
      (.success "q" (filterResults (-(74997/100000) : ℚ)
        [⟨"doc", ⟨"a.md", "a.md", 0, ".md"⟩, 1749966/1000000⟩]) 10 (-(74997/100000)), true) := by
        simp [execute, effective_threshold, effective_limit]
    _ = (.success "q" [⟨"doc", -(3/4), "a.md", "a.md", 0, ".md"⟩] 10 (-(74997/100000)), true) := by
        rw [hfilter]

/-- C7: for every call whose candidate list arrives from the store in
ascending-distance order and within the effective limit (the store is
queried with `n_results = limit`), the returned result list is sorted by
non-increasing `similarity_score` and has at most `limit` elements. -/
theorem execute_ranking (cfg : SearchDefaults) (flag : Bool) (count : ℕ)
    (cands : List Candidate) (p : ExecuteParams)
    (hsorted : cands.Pairwise (fun a b => a.distance ≤ b.distance))
    (hlen : cands.length ≤ effective_limit cfg p) :
    (searchResults (execute cfg flag count cands p)).Pairwise
      (fun a b => b.similarity_score ≤ a.similarity_score) ∧
    (searchResults (execute cfg flag count cands p)).length ≤ effective_limit cfg p := by
  rcases searchResults_execute cfg flag count cands p with hnil | hres
  · rw [hnil]
    exact ⟨List.Pairwise.nil, by simp⟩
  · rw [hres]
    exact ⟨filterResults_sorted hsorted,
      le_trans (filterResults_length_le _ _) hlen⟩

/-- Witness for C7 at a two-candidate store answer in ascending-distance
order. -/
theorem execute_ranking_witness :
    (searchResults (execute ⟨10, 0⟩ true 2
        [⟨"d1", ⟨"a.md", "a.md", 0, ".md"⟩, 0⟩, ⟨"d2", ⟨"a.md", "a.md", 1, ".md"⟩, 1⟩]
        ⟨some "q", none, none⟩)).Pairwise
      (fun a b => b.similarity_score ≤ a.similarity_score) ∧
    (searchResults (execute ⟨10, 0⟩ true 2
        [⟨"d1", ⟨"a.md", "a.md", 0, ".md"⟩, 0⟩, ⟨"d2", ⟨"a.md", "a.md", 1, ".md"⟩, 1⟩]
        ⟨some "q", none, none⟩)).length ≤
      effective_limit ⟨10, 0⟩ ⟨some "q", none, none⟩ :=
  execute_ranking ⟨10, 0⟩ true 2
    [⟨"d1", ⟨"a.md", "a.md", 0, ".md"⟩, 0⟩, ⟨"d2", ⟨"a.md", "a.md", 1, ".md"⟩, 1⟩]
    ⟨some "q", none, none⟩ (by decide) (by decide)

/-! ### Claim C8: failure policy of the indexing run -/

/-- If the `k`-th batch operation is the first to raise, the upsert loop
stops there: the collection has received exactly the batches before `k`
and the loop reports failure. -/
theorem runBatches_first_failure (fails : ℕ → Bool) :
    ∀ (bs : List (List String)) (i : ℕ) (coll : List String) (k : ℕ),
      k < bs.length → fails (i + k) = true → (∀ j < k, fails (i + j) = false) →
      runBatches fails i bs coll = (coll ++ (bs.take k).flatten, false) := by
  intro bs
  induction bs with
  | nil =>
    intro i coll k hk
    exact absurd hk (by simp)
  | cons b rest ih =>
    intro i coll k hk hfk hprev
    rw [runBatches]
    cases k with
    | zero =>
      rw [if_pos (by simpa using hfk)]
      simp
    | succ k =>
      have hfi : fails i = false := by simpa using hprev 0 (Nat.succ_pos k)
      rw [if_neg (by simp [hfi])]
      have hrec := ih (i + 1) (coll ++ b) k (by simpa using Nat.lt_of_succ_lt_succ hk)
        (by rw [show i + 1 + k = i + (k + 1) from by omega]; exact hfk)
        (fun j hj => by
          rw [show i + 1 + j = i + (j + 1) from by omega]
          exact hprev (j + 1) (by omega))
      rw [hrec]
      simp [List.append_assoc]

/-- C8: during an indexing run over a non-complete instance, a first batch
failure at batch `k` leaves the flag unset and the collection holding
exactly the batches before `k` (the remaining batches are abandoned); an
exception during the scan phase forces the flag to complete with the
collection untouched; and a run that finds zero documents completes with
the collection untouched (in particular, still empty). -/
theorem index_directory_failure_policy (st : IndexState) (docs : List String)
    (fails : ℕ → Bool) (k : ℕ) (hst : st.indexing_complete = false)
    (hk : k < (batchesOf 100 docs).length) (hfk : fails k = true)
    (hprev : ∀ j < k, fails j = false) :
    index_directory st (.scanned docs) fails =
      .ok ⟨false, st.collection ++ ((batchesOf 100 docs).take k).flatten⟩ ∧
    index_worker st (.scanned docs) fails =
      ⟨false, st.collection ++ ((batchesOf 100 docs).take k).flatten⟩ ∧
    index_worker st .scanFailure fails = ⟨true, st.collection⟩ ∧
    index_worker st (.scanned []) fails = ⟨true, st.collection⟩ := by
  have hdocs : docs.isEmpty = false := by
    cases docs with
    | nil => simp [batchesOf, batchesOfAux] at hk
    | cons a l => rfl
  have hrun := runBatches_first_failure fails (batchesOf 100 docs) 0 st.collection k hk
    (by simpa using hfk) (fun j hj => by simpa using hprev j hj)
  have hdir : index_directory st (.scanned docs) fails =
      .ok ⟨false, st.collection ++ ((batchesOf 100 docs).take k).flatten⟩ := by
    simp [index_directory, hst, hdocs, hrun]
  refine ⟨hdir, ?_, ?_, ?_⟩
  · simp [index_worker, hdir]
  · simp [index_worker, index_directory, hst]
  · simp [index_worker, index_directory, hst]

/-- Witness for C8: a single-document run whose only batch fails. -/
theorem index_directory_failure_policy_witness :
    index_directory ⟨false, []⟩ (.scanned ["a"]) (fun _ => true) =
      .ok ⟨false, [] ++ ((batchesOf 100 ["a"]).take 0).flatten⟩ ∧
    index_worker ⟨false, []⟩ (.scanned ["a"]) (fun _ => true) =
      ⟨false, [] ++ ((batchesOf 100 ["a"]).take 0).flatten⟩ ∧
    index_worker ⟨false, []⟩ .scanFailure (fun _ => true) = ⟨true, []⟩ ∧
    index_worker ⟨false, []⟩ (.scanned []) (fun _ => true) = ⟨true, []⟩ :=
  index_directory_failure_policy ⟨false, []⟩ ["a"] (fun _ => true) 0 rfl (by decide) rfl
    (fun j hj => absurd hj (Nat.not_lt_zero j))

/-! ### Claim C9: identity of the persisted collection -/

/-- Counterexample to C9 as written: two configurations sharing the tool
name and scan directory but selecting different embedding providers derive
the same persistence path and the same collection name, so the
provider does not enter the collection identity at all. -/
theorem collectionIdentity_counterexample :
    collectionIdentity
        ⟨"/data", "huggingface", "all-MiniLM-L6-v2", "text-embedding-004", none, "us-central1"⟩
        "tool" =
      collectionIdentity
        ⟨"/data", "vertexai", "all-MiniLM-L6-v2", "text-embedding-004", none, "us-central1"⟩
        "tool" ∧
    (⟨"/data", "huggingface", "all-MiniLM-L6-v2", "text-embedding-004", none, "us-central1"⟩ :
        ProviderConfig).embedding_provider ≠
      (⟨"/data", "vertexai", "all-MiniLM-L6-v2", "text-embedding-004", none, "us-central1"⟩ :
        ProviderConfig).embedding_provider := by decide

/-- C9 (amended): the derived collection identity is a function of the tool
name and the scan directory alone — any two configurations agreeing on
those (regardless of embedding provider or its parameters) derive the same
persistence path and collection name, so provider mixing inside one
collection is not structurally prevented. -/
theorem collectionIdentity_provider_independent (c1 c2 : ProviderConfig) (name : String)
    (hdir : c1.scan_directory = c2.scan_directory) :
    collectionIdentity c1 name = collectionIdentity c2 name := by
  unfold collectionIdentity
  rw [hdir]

/-- Witness for C9 (amended) at two concrete configurations that differ in
every provider field. -/
theorem collectionIdentity_provider_independent_witness :
    collectionIdentity ⟨"/repo", "huggingface", "all-MiniLM-L6-v2", "x", none, "us-central1"⟩
        "notes" =
      collectionIdentity ⟨"/repo", "vertexai", "y", "text-embedding-004", some "proj", "eu"⟩
        "notes" :=
  collectionIdentity_provider_independent
    ⟨"/repo", "huggingface", "all-MiniLM-L6-v2", "x", none, "us-central1"⟩
    ⟨"/repo", "vertexai", "y", "text-embedding-004", some "proj", "eu"⟩ "notes" rfl
